import Mathlib

/-!
Verification of the tahini_lib attestation framework specification against a
shallow embedding of the Rust sources.

Rust strings and byte vectors are both modelled as `List Nat` (a Rust `String`
is its UTF-8 bytes; every string handled by the claims is ASCII).  External
cryptographic primitives (Ed25519, X25519, AES-256-GCM, SSKDF) live in the
aws-lc-rs crate outside this repository and are modelled as parameters
constrained only by the algebraic laws the claims rely on.  SHA-256 (the
`sha256` / `sha2` crates) is implemented concretely, because several claims
compare concrete digests.  Rust `HashMap` serialization order is random
(`RandomState`); wherever the source serializes a `HashMap`, the embedding
takes the iteration order as an explicit entry-list argument.
-/

set_option maxRecDepth 100000

namespace Tahini

/-- ASCII bytes of a Lean string literal (all literals used are ASCII). -/
def asciiBytes (s : String) : List Nat := s.data.map Char.toNat

/-- Lowercase hex digit for a value below 16, as an ASCII byte. -/
def hexDigitByte (d : Nat) : Nat := if d < 10 then 48 + d else 87 + d

/-- Model of `hex::encode`: lowercase hex of a byte list, as ASCII bytes. -/
def hexEncode (bs : List Nat) : List Nat :=
  bs.flatMap (fun b => [hexDigitByte (b / 16), hexDigitByte (b % 16)])

/-- Value of one ASCII hex digit byte, accepting `0-9`, `a-f`, `A-F`
as `hex::decode` does. -/
def hexVal (b : Nat) : Option Nat :=
  if 48 ≤ b ∧ b ≤ 57 then some (b - 48)
  else if 97 ≤ b ∧ b ≤ 102 then some (b - 87)
  else if 65 ≤ b ∧ b ≤ 70 then some (b - 55)
  else none

/-- Model of `hex::decode`: pairs of hex digits to bytes; fails on an odd
length or a non-hex byte. -/
def hexDecode : List Nat → Option (List Nat)
  | [] => some []
  | [_] => none
  | h :: l :: rest =>
    match hexVal h, hexVal l, hexDecode rest with
    | some hv, some lv, some bs => some ((16 * hv + lv) :: bs)
    | _, _, _ => none

/-- Decimal ASCII rendering of a natural number, as Rust `Display` for
unsigned integers prints it. -/
def decimalBytes (n : Nat) : List Nat :=
  if n = 0 then [48] else (Nat.digits 10 n).reverse.map (fun d => 48 + d)

/-- Model of `usize::from_str_radix(s, 10)`: all bytes must be ASCII digits,
the string must be nonempty, and the value must fit in 64 bits. -/
def parseDecimal (bs : List Nat) : Option Nat :=
  if bs = [] then none
  else if bs.all (fun b => 48 ≤ b ∧ b ≤ 57) then
    let v := bs.foldl (fun acc b => acc * 10 + (b - 48)) 0
    if v < 2 ^ 64 then some v else none
  else none

/-- Model of `str::split` on a one-byte separator: always returns at least
one (possibly empty) field. -/
def splitOnByte (c : Nat) : List Nat → List (List Nat)
  | [] => [[]]
  | b :: bs =>
    if b = c then [] :: splitOnByte c bs
    else
      match splitOnByte c bs with
      | [] => [[b]]
      | p :: ps => (b :: p) :: ps

/-- Model of `str::trim_end_matches("\n")`: drop every trailing newline
byte. -/
def trimEndNewline (bs : List Nat) : List Nat :=
  ((bs.reverse).dropWhile (fun b => b = 10)).reverse

/-- Drop a single trailing carriage return, as `BufRead::lines` does for a
newline-terminated line. -/
def stripCR (l : List Nat) : List Nat :=
  if l.getLast? = some 13 then l.dropLast else l

/-- Model of `BufRead::lines` over in-memory contents: split on newline
bytes; every line but a final unterminated fragment loses a trailing
carriage return; a trailing newline produces no extra empty line, and empty
contents produce no line at all. -/
def rustLines (bs : List Nat) : List (List Nat) :=
  let parts := splitOnByte 10 bs
  let term := parts.dropLast.map stripCR
  match parts.getLast? with
  | none => []
  | some last => if last = [] then term else term ++ [last]

/-- Concatenate byte-list fields with a separator. -/
def joinBytes (sep : List Nat) : List (List Nat) → List Nat
  | [] => []
  | [x] => x
  | x :: xs => x ++ sep ++ joinBytes sep xs

/-- JSON escaping of one byte as `serde_json` performs it: quote, backslash
and control bytes are escaped, everything else passes through. -/
def escapeByte (b : Nat) : List Nat :=
  if b = 34 then [92, 34]
  else if b = 92 then [92, 92]
  else if b = 8 then [92, 98]
  else if b = 9 then [92, 116]
  else if b = 10 then [92, 110]
  else if b = 12 then [92, 102]
  else if b = 13 then [92, 114]
  else if b < 32 then [92, 117, 48, 48, hexDigitByte (b / 16), hexDigitByte (b % 16)]
  else [b]

/-- A JSON string literal (quoted, escaped), as bytes. -/
def jsonStringBytes (s : List Nat) : List Nat :=
  34 :: s.flatMap escapeByte ++ [34]

/-- Compact `serde_json` serialization of a string-to-string map, given the
entries in the map's iteration order. -/
def jsonCompactMap (entries : List (List Nat × List Nat)) : List Nat :=
  123 :: joinBytes [44] (entries.map (fun e => jsonStringBytes e.1 ++ 58 :: jsonStringBytes e.2)) ++ [125]

/-- Strict lexicographic order on byte lists: the order `Ord` on Rust
`String` induces. -/
def lexLt : List Nat → List Nat → Bool
  | [], [] => false
  | [], _ :: _ => true
  | _ :: _, [] => false
  | a :: as, b :: bs => if a < b then true else if b < a then false else lexLt as bs

/-- Insert into a list sorted by `le`. -/
def insLe {α : Type} (le : α → α → Bool) (a : α) : List α → List α
  | [] => [a]
  | b :: bs => if le a b then a :: b :: bs else b :: insLe le a bs

/-- Insertion sort by `le`. -/
def isort {α : Type} (le : α → α → Bool) (l : List α) : List α :=
  l.foldr (insLe le) []

/-- Non-strict lexicographic order on byte lists. -/
def lexLe (a b : List Nat) : Bool := lexLt a b || a == b

/-- Sort key-value entries by key, as `Vec::sort_by_key` does for string
keys. -/
def sortPairs (l : List (List Nat × List Nat)) : List (List Nat × List Nat) :=
  isort (fun a b => lexLe a.1 b.1) l

/-- Sort byte-list names, as `Vec::<CrateName>::sort` does. -/
def sortNames (l : List (List Nat)) : List (List Nat) :=
  isort lexLe l

section Sha256

/-- Truncate to a 32-bit word. -/
def w32 (n : Nat) : Nat := n % 4294967296

/-- Right rotation of a 32-bit word. -/
def rotr32 (n x : Nat) : Nat := w32 (Nat.lor (Nat.shiftRight x n) (Nat.shiftLeft x (32 - n)))

def sigmaBig0 (x : Nat) : Nat := Nat.xor (rotr32 2 x) (Nat.xor (rotr32 13 x) (rotr32 22 x))
def sigmaBig1 (x : Nat) : Nat := Nat.xor (rotr32 6 x) (Nat.xor (rotr32 11 x) (rotr32 25 x))
def sigmaSmall0 (x : Nat) : Nat := Nat.xor (rotr32 7 x) (Nat.xor (rotr32 18 x) (Nat.shiftRight x 3))
def sigmaSmall1 (x : Nat) : Nat := Nat.xor (rotr32 17 x) (Nat.xor (rotr32 19 x) (Nat.shiftRight x 10))

/-- The SHA-256 round constants. -/
def shaK : List Nat :=
  [1116352408, 1899447441, 3049323471, 3921009573, 961987163, 1508970993,
   2453635748, 2870763221, 3624381080, 310598401, 607225278, 1426881987,
   1925078388, 2162078206, 2614888103, 3248222580, 3835390401, 4022224774,
   264347078, 604807628, 770255983, 1249150122, 1555081692, 1996064986,
   2554220882, 2821834349, 2952996808, 3210313671, 3336571891, 3584528711,
   113926993, 338241895, 666307205, 773529912, 1294757372, 1396182291,
   1695183700, 1986661051, 2177026350, 2456956037, 2730485921, 2820302411,
   3259730800, 3345764771, 3516065817, 3600352804, 4094571909, 275423344,
   430227734, 506948616, 659060556, 883997877, 958139571, 1322822218,
   1537002063, 1747873779, 1955562222, 2024104815, 2227730452, 2361852424,
   2428436474, 2756734187, 3204031479, 3329325298]

/-- The SHA-256 initial hash value. -/
def shaH0 : List Nat :=
  [1779033703, 3144134277, 1013904242, 2773480762,
   1359893119, 2600822924, 528734635, 1541459225]

/-- Big-endian bytes of a value at a fixed width. -/
def beBytes (width n : Nat) : List Nat :=
  (List.range width).map (fun i => (Nat.shiftRight n (8 * (width - 1 - i))) % 256)

/-- SHA-256 padding of a byte message. -/
def shaPad (msg : List Nat) : List Nat :=
  let l := msg.length
  let padZeros := (64 - ((l + 9) % 64)) % 64
  msg ++ [0x80] ++ List.replicate padZeros 0 ++ beBytes 8 (8 * l)

/-- Group 4 consecutive bytes into big-endian 32-bit words. -/
def wordsOfBytes : List Nat → List Nat
  | b0 :: b1 :: b2 :: b3 :: rest =>
      (((b0 * 256 + b1) * 256 + b2) * 256 + b3) :: wordsOfBytes rest
  | _ => []

/-- Extend the 16-word schedule; the accumulator holds words
most-recent-first. -/
def schedExt (w : List Nat) : Nat → List Nat
  | 0 => w.reverse
  | n + 1 =>
      schedExt
        (w32 (sigmaSmall1 (w.getD 1 0) + w.getD 6 0 + sigmaSmall0 (w.getD 14 0) + w.getD 15 0) :: w)
        n

/-- The eight SHA-256 working variables. -/
structure ShaState where
  a : Nat
  b : Nat
  c : Nat
  d : Nat
  e : Nat
  f : Nat
  g : Nat
  h : Nat

/-- One SHA-256 compression round. -/
def shaRound (s : ShaState) (kw : Nat × Nat) : ShaState :=
  let t1 := w32 (s.h + sigmaBig1 s.e +
    Nat.xor (Nat.land s.e s.f) (Nat.land (Nat.xor s.e 4294967295) s.g) + kw.1 + kw.2)
  let t2 := w32 (sigmaBig0 s.a +
    Nat.xor (Nat.land s.a s.b) (Nat.xor (Nat.land s.a s.c) (Nat.land s.b s.c)))
  ⟨w32 (t1 + t2), s.a, s.b, s.c, w32 (s.d + t1), s.e, s.f, s.g⟩

/-- Compress one 64-byte chunk into the running 8-word hash value. -/
def shaCompress (hv : List Nat) (chunk : List Nat) : List Nat :=
  let w := schedExt (wordsOfBytes chunk).reverse 48
  let s0 : ShaState :=
    ⟨hv.getD 0 0, hv.getD 1 0, hv.getD 2 0, hv.getD 3 0,
     hv.getD 4 0, hv.getD 5 0, hv.getD 6 0, hv.getD 7 0⟩
  let s := (shaK.zip w).foldl shaRound s0
  [w32 (hv.getD 0 0 + s.a), w32 (hv.getD 1 0 + s.b), w32 (hv.getD 2 0 + s.c), w32 (hv.getD 3 0 + s.d),
   w32 (hv.getD 4 0 + s.e), w32 (hv.getD 5 0 + s.f), w32 (hv.getD 6 0 + s.g), w32 (hv.getD 7 0 + s.h)]

/-- Split a byte list into 64-byte chunks (fuel-based so that it reduces in
the kernel). -/
def chunksAux (fuel : Nat) (l : List Nat) : List (List Nat) :=
  match fuel, l with
  | 0, _ => []
  | _, [] => []
  | fuel + 1, l => l.take 64 :: chunksAux fuel (l.drop 64)

def chunks64 (l : List Nat) : List (List Nat) := chunksAux l.length l

/-- SHA-256 digest of a byte message, as its 32 digest bytes. -/
def sha256bytes (msg : List Nat) : List Nat :=
  ((chunks64 (shaPad msg)).foldl shaCompress shaH0).flatMap (beBytes 4)

/-- Model of Rust `sha256::digest`: lowercase hex of the SHA-256 digest (the
crate returns a `String`; here: its ASCII bytes). -/
def sha256hex (msg : List Nat) : List Nat := hexEncode (sha256bytes msg)

end Sha256

section PolicyHasher

/-- The two error kinds the policy-hashing file code produces: a failed
`File::open` (`NotFound`-style OS error) and an explicit
`io::ErrorKind::InvalidData`. -/
inductive IoErr where
  | notFound : IoErr
  | invalidData : IoErr
deriving DecidableEq, Repr

/-- Embeds `Crate::prune_deps` (src/policy_signing/src/utils/dependency.rs).
`indexFile` is the result of opening `./policy_hashes/hash_index` (`none`
when the open fails).  On an open failure the Rust code first assigns
`self.dependencies_names = Vec::new()` and then immediately re-raises the
open error with `already_hashed?`, so the function returns `Err` and the
cleared list is never observed.  Otherwise the index lines and the
dependency names are treated as sets, intersected, and the result sorted. -/
def prune_deps (indexFile : Option (List Nat)) (dependencies_names : List (List Nat)) :
    Except IoErr (List (List Nat)) :=
  match indexFile with
  | none => Except.error IoErr.notFound
  | some contents =>
      let already_hashed := rustLines contents
      Except.ok (sortNames ((dependencies_names.dedup).filter (fun d => already_hashed.contains d)))

/-- Embeds `retrieve_hash_from_file` (src/certificate_generation/src/main.rs).
`contents` is the opened file's bytes (`none` when the open fails).  The
first line is returned as the policy hash; only a file with no first line
at all yields `InvalidData`. -/
def retrieve_hash_from_file (contents : Option (List Nat)) : Except IoErr (List Nat) :=
  match contents with
  | none => Except.error IoErr.notFound
  | some bs =>
    match (rustLines bs).head? with
    | none => Except.error IoErr.invalidData
    | some hash_line => Except.ok hash_line

/-- Reads the first line of each dependency's policy-hash file in order,
propagating the first failure, as the loop in `Crate::get_leaves` does. -/
def get_leavesAux (readFile : List Nat → Option (List Nat)) :
    List (List Nat) → Except IoErr (List (List Nat × List Nat))
  | [] => Except.ok []
  | d :: ds =>
    match readFile d with
    | none => Except.error IoErr.notFound
    | some c =>
      match (rustLines c).head? with
      | none => Except.error IoErr.invalidData
      | some h => (get_leavesAux readFile ds).map (fun rest => (d, h) :: rest)

/-- Embeds `Crate::get_leaves`: collect `(dep, first line)` pairs, sort them
by dependency name, and keep the hashes. -/
def get_leaves (readFile : List Nat → Option (List Nat)) (dependencies_names : List (List Nat)) :
    Except IoErr (List (List Nat)) :=
  (get_leavesAux readFile dependencies_names).map (fun l => (sortPairs l).map (fun e => e.2))

/-- Embeds the summary computation of `Crate::dump_local_to_file`.
`depOrder` is the iteration order of the Rust `HashMap` built by zipping
`dependencies_names` with `dependencies_hashes`, and `implOrder` the
iteration order of `local_implementations_stable_hashes`; both orders are
arbitrary permutations because the maps use `RandomState`.  The first line
is `sha256(dep_tree_hash ++ local_hash)` where both inner digests are hex
strings. -/
def dump_first_line (depOrder implOrder : List (List Nat × List Nat)) : List Nat :=
  let dep_tree_hash := sha256hex (jsonCompactMap depOrder)
  let local_hash := sha256hex (jsonCompactMap implOrder)
  sha256hex (dep_tree_hash ++ local_hash)

/-- Pretty-printed `serde_json` map at nesting depth one (two-space
indent), given the entries in iteration order. -/
def jsonPrettyInner (entries : List (List Nat × List Nat)) : List Nat :=
  match entries with
  | [] => [123, 125]
  | _ =>
    123 :: 10 ::
      joinBytes [44, 10]
        (entries.map (fun e => [32, 32, 32, 32] ++ jsonStringBytes e.1 ++ 58 :: 32 :: jsonStringBytes e.2)) ++
      10 :: 32 :: 32 :: [125]

/-- Pretty-printed `serde_json` serialization of `JsonDumpStruct` with its
three fields in declaration order. -/
def dumpBodyBytes (depOrder : List (List Nat × List Nat)) (local_hash : List Nat)
    (implOrder : List (List Nat × List Nat)) : List Nat :=
  [123, 10, 32, 32] ++ jsonStringBytes (asciiBytes "dependency_hashes") ++ [58, 32] ++
    jsonPrettyInner depOrder ++ [44, 10, 32, 32] ++
    jsonStringBytes (asciiBytes "local_summary_hash") ++ [58, 32] ++
    jsonStringBytes local_hash ++ [44, 10, 32, 32] ++
    jsonStringBytes (asciiBytes "local_impls_hashes") ++ [58, 32] ++
    jsonPrettyInner implOrder ++ [10, 125]

/-- Embeds the bytes `Crate::dump_local_to_file` writes to
`<crate>_policy_hashes.json`: the summary line, a newline, then the pretty
JSON body.  The same `HashMap` instances are serialized for the hashes and
for the body, so one iteration order per map governs both. -/
def dump_file_bytes (depOrder implOrder : List (List Nat × List Nat)) : List Nat :=
  dump_first_line depOrder implOrder ++ [10] ++
    dumpBodyBytes depOrder (sha256hex (jsonCompactMap implOrder)) implOrder

/-- The first line as the specification describes it: SHA-256 of the
concatenation of the hex digest of the canonical (key-sorted) JSON of the
dependency map and the hex digest of the canonical JSON of the local
implementation map. -/
def specFirstLine (depEntries implEntries : List (List Nat × List Nat)) : List Nat :=
  sha256hex (sha256hex (jsonCompactMap (sortPairs depEntries)) ++
    sha256hex (jsonCompactMap (sortPairs implEntries)))

end PolicyHasher

section AttestTypes

/-- Embeds `TahiniCertificate` (hoodini-core/src/types.rs).  The newtype
wrappers `ServiceName`, `PolicyHash`, `BinHash`, `Signature` serialize as
their inner strings, so fields are byte lists directly; `signature` holds
the lowercase-hex signature string. -/
structure Certificate where
  service_name : List Nat
  policy_hash : List Nat
  binary_hash : List Nat
  signature : List Nat
deriving DecidableEq, Repr

/-- Embeds `DynamicAttestationReport` (hoodini-core/src/types.rs);
`signature` is the hex string of the sidecar's report signature. -/
structure Report where
  certificate : Certificate
  nonce : Nat
  service_name : List Nat
  current_bin_hash : List Nat
  server_key_share : List Nat
  client_id : Nat
  signature : List Nat
deriving DecidableEq, Repr

/-- Embeds the error enum `AttestErrors` (hoodini-core/src/types.rs). -/
inductive AttestErrors where
  | IoError : AttestErrors
  | ServiceMismatchError : AttestErrors
  | NetworkError : AttestErrors
  | AttestDataMalformedError : AttestErrors
  | ConfigError : AttestErrors
  | CryptoError : AttestErrors
  | InvalidAttestation : AttestErrors
deriving DecidableEq, Repr

/-- Outcome of a Rust function that can also `panic` (`expect`/`unwrap`):
a panic is distinct from a returned error. -/
inductive VOut (α : Type) where
  | ok : α → VOut α
  | err : AttestErrors → VOut α
  | crash : VOut α
deriving DecidableEq, Repr

/-- Whether a `VOut` is a success. -/
def VOut.isOk {α : Type} : VOut α → Bool
  | VOut.ok _ => true
  | _ => false

/-- Compact `serde_json` serialization of a `TahiniCertificate`, fields in
declaration order. -/
def serializeCertificate (c : Certificate) : List Nat :=
  123 :: jsonStringBytes (asciiBytes "service_name") ++ 58 :: jsonStringBytes c.service_name ++
  44 :: jsonStringBytes (asciiBytes "policy_hash") ++ 58 :: jsonStringBytes c.policy_hash ++
  44 :: jsonStringBytes (asciiBytes "binary_hash") ++ 58 :: jsonStringBytes c.binary_hash ++
  44 :: jsonStringBytes (asciiBytes "signature") ++ 58 :: jsonStringBytes c.signature ++ [125]

/-- Compact `serde_json` serialization of a `Vec<u8>`: array of decimal
numbers. -/
def serializeByteVec (bs : List Nat) : List Nat :=
  91 :: joinBytes [44] (bs.map decimalBytes) ++ [93]

/-- The signing blob `DynamicAttestationData` (hoodini-core/src/types.rs):
borrowed certificate, nonce, service name, binary hash, server key share,
client id, serialized by `serde_json::to_vec` in field order. -/
structure AttestData where
  cert : Certificate
  nonce : Nat
  service_name : List Nat
  current_bin_hash : List Nat
  server_key_share : List Nat
  client_id : Nat
deriving DecidableEq, Repr

/-- Compact `serde_json` serialization of `DynamicAttestationData`. -/
def serializeAttestData (d : AttestData) : List Nat :=
  123 :: jsonStringBytes (asciiBytes "cert") ++ 58 :: serializeCertificate d.cert ++
  44 :: jsonStringBytes (asciiBytes "nonce") ++ 58 :: decimalBytes d.nonce ++
  44 :: jsonStringBytes (asciiBytes "service_name") ++ 58 :: jsonStringBytes d.service_name ++
  44 :: jsonStringBytes (asciiBytes "current_bin_hash") ++ 58 :: jsonStringBytes d.current_bin_hash ++
  44 :: jsonStringBytes (asciiBytes "server_key_share") ++ 58 :: serializeByteVec d.server_key_share ++
  44 :: jsonStringBytes (asciiBytes "client_id") ++ 58 :: decimalBytes d.client_id ++ [125]

end AttestTypes

section CertificateStore

/-- The certificate map of `CertificateLoader`, keyed by service name. -/
def CertMap : Type := List Nat → Option Certificate

/-- Map update, as `HashMap::insert` leaves the map. -/
def insertCert (m : CertMap) (name : List Nat) (c : Certificate) : CertMap :=
  fun k => if k = name then some c else m k

/-- What `register_service` (hoodini-core/src/certificate.rs) finds at the
given path: no readable file, unparseable JSON, or a certificate. -/
inductive CertFile where
  | noFile : CertFile
  | malformed : CertFile
  | parsed : Certificate → CertFile

/-- Embeds `CertificateLoader::register_service`: open and parse the file,
reject a certificate whose embedded `service_name` disagrees with the
argument, otherwise insert under the argument name and report whether the
name was previously unregistered.  Returns the result together with the
map after the call (`&mut self`). -/
def register_service (certificates : CertMap) (file : CertFile) (service_name : List Nat) :
    Except AttestErrors Bool × CertMap :=
  match file with
  | CertFile.noFile => (Except.error AttestErrors.IoError, certificates)
  | CertFile.malformed => (Except.error AttestErrors.AttestDataMalformedError, certificates)
  | CertFile.parsed certificate =>
    if service_name ≠ certificate.service_name then
      (Except.error AttestErrors.ServiceMismatchError, certificates)
    else
      (Except.ok (certificates service_name).isNone,
       insertCert certificates service_name certificate)

/-- Embeds `DynamicAttestationVerifier::verify_certificate`
(hoodini-client/src/lib.rs): requires the accepted key to be loaded, then
compares the certificate stored under the *remote certificate's own*
service name against the remote certificate. -/
def verify_certificate (keyLoaded : Bool) (certificates : CertMap) (remote : Certificate) : Bool :=
  if keyLoaded = false then false
  else
    match certificates remote.service_name with
    | none => false
    | some local_certificate => local_certificate = remote

end CertificateStore

section ClientMap

/-- The per-process `CLIENT_MAP` of a service (hoodini-server/src/lib.rs):
client id to 32-byte session-key material. -/
def ClientMap : Type := Nat → Option (List Nat)

/-- The map after removing one client id, as `HashMap::remove_entry`
leaves it. -/
def removeClient (m : ClientMap) (client_id : Nat) : ClientMap :=
  fun k => if k = client_id then none else m k

/-- Embeds `get_key_for_client` (hoodini-server/src/lib.rs): take the write
lock, `remove_entry` the id and return the removed key.  A missing id makes
the `expect` panic, modelled as `none`; the map is not modified in that
case. -/
def get_key_for_client (m : ClientMap) (client_id : Nat) :
    Option (List Nat × ClientMap) :=
  match m client_id with
  | none => none
  | some key => some (key, removeClient m client_id)

end ClientMap

section KeyAgreement

variable {SK : Type}

/-- Embeds `derive_key_from_shares` (hoodini-core/src/service.rs).  The
X25519 agreement and the SSKDF-HMAC-SHA256 derivation are external
aws-lc-rs primitives, passed as `agree` and `sskdf`; the source fixes the
salt to 32 zero bytes and the info string to "Sidecar_session". -/
def derive_key_from_shares (agree : SK → List Nat → List Nat)
    (sskdf : List Nat → List Nat → List Nat → List Nat)
    (local_skey : SK) (remote_share : List Nat) : List Nat :=
  sskdf (agree local_skey remote_share) (asciiBytes "Sidecar_session") (List.replicate 32 0)

end KeyAgreement

section Fifo

/-- Embeds `FifoWriterHandle::write_session_key` (tahini_attest/src/sidecar.rs).
`sealAead` models `RandomizedNonceKey::seal_in_place_append_tag` under the
pipe KEK: it returns the random nonce and the ciphertext (tag included).
The emitted line is nonce hex, ciphertext hex and the decimal client id,
joined by commas and terminated by a newline. -/
def write_session_key (sealAead : List Nat → List Nat × List Nat)
    (key_material : List Nat) (client_id : Nat) : List Nat :=
  let sealed := sealAead key_material
  hexEncode sealed.1 ++ (44 :: (hexEncode sealed.2 ++ (44 :: (decimalBytes client_id ++ [10]))))

/-- Embeds the parsing half of `FifoReadHandle::read_session_key`
(hoodini-server/src/lib.rs) applied to one line read from the FIFO
(trailing newline included).  `openAead` models `open_in_place` under the
KEK.  Splits on commas into exactly three fields, decodes the 24-hex-char
nonce into 12 bytes, hex-decodes the ciphertext, decrypts, requires
32 bytes of key material for `RandomizedNonceKey::new`, and parses the
newline-trimmed third field as a decimal client id.  Every `expect`-panic
is `none`. -/
def read_session_key (openAead : List Nat → List Nat → Option (List Nat))
    (line : List Nat) : Option (Nat × List Nat) :=
  match splitOnByte 44 line with
  | [nonce_hex, cipher_hex, client_field] =>
    match hexDecode nonce_hex with
    | none => none
    | some nonce =>
      if nonce.length = 12 then
        match hexDecode cipher_hex with
        | none => none
        | some cipher_vec =>
          match openAead nonce cipher_vec with
          | none => none
          | some key_material =>
            if key_material.length = 32 then
              match parseDecimal (trimEndNewline client_field) with
              | none => none
              | some client_id => some (client_id, key_material)
            else none
      else none
  | _ => none

end Fifo

section Sidecar

variable {SK : Type}

/-- What `SideCarServer::attest_binary` (src/sidecar/src/main.rs) produces
besides the returned report: the session-key material handed to
`write_session_key` and the FIFO line it emits. -/
structure AttestOutcome where
  report : Report
  pipe_key_material : List Nat
  pipe_line : List Nat

/-- Embeds `SideCarServer::attest_binary`.  Randomness is passed in
(`client_id`, the ephemeral `sk_s`); `pub` gives a secret key's public
share, `sign` the attestation Ed25519 signature over a byte blob, and
`sealAead` the pipe KEK encryption.  A missing binary hash, certificate,
service mapping or FIFO handle panics (`none`).  The report's signature is
the hex of the signature over the serialized `DynamicAttestationData`. -/
def attest_binary (binMap : List Nat → Option (List Nat))
    (certMap : List Nat → Option Certificate)
    (svcMap : List Nat → Option (List Nat)) (hasFifo : List Nat → Bool)
    (pubShare : SK → List Nat) (agree : SK → List Nat → List Nat)
    (sskdf : List Nat → List Nat → List Nat → List Nat)
    (sign : List Nat → List Nat) (sealAead : List Nat → List Nat × List Nat)
    (sk_s : SK) (client_id : Nat)
    (service_name : List Nat) (nonce : Nat) (key_share : List Nat) : Option AttestOutcome :=
  match binMap service_name with
  | none => none
  | some bin =>
    match certMap service_name with
    | none => none
    | some certificate =>
      let usable_key := derive_key_from_shares agree sskdf sk_s key_share
      let signing_data : AttestData :=
        { cert := certificate, nonce := nonce, service_name := service_name,
          current_bin_hash := bin, server_key_share := pubShare sk_s, client_id := client_id }
      let sig := hexEncode (sign (serializeAttestData signing_data))
      match svcMap service_name with
      | none => none
      | some svc =>
        if hasFifo svc then
          some { report :=
                  { certificate := certificate, current_bin_hash := bin, nonce := nonce,
                    service_name := service_name, server_key_share := pubShare sk_s,
                    client_id := client_id, signature := sig },
                 pipe_key_material := usable_key,
                 pipe_line := write_session_key sealAead usable_key client_id }
        else none

end Sidecar

section ClientVerifier

variable {SK : Type}

/-- Embeds the verification tail of `DynamicAttestationVerifier::verify_binary`
(hoodini-client/src/lib.rs), from the moment the RPC response `report` is
in hand.  `sigVerify` models `UnparsedPublicKey::verify` under the accepted
attestation key (message, then signature bytes).  A non-hex report
signature makes the `expect` panic (`VOut.crash`).  The re-serialized
signing blob uses the client's own `bin_name` and nonce and the
certificate's binary hash. -/
def verify_binary_response (agree : SK → List Nat → List Nat)
    (sskdf : List Nat → List Nat → List Nat → List Nat)
    (sigVerify : List Nat → List Nat → Bool)
    (keyLoaded : Bool) (certificates : CertMap)
    (sk : SK) (bin_name : List Nat) (nonce : Nat) (report : Report) :
    VOut (Nat × List Nat) :=
  let certificate := report.certificate
  if verify_certificate keyLoaded certificates certificate = false then
    VOut.err AttestErrors.InvalidAttestation
  else if report.current_bin_hash ≠ certificate.binary_hash then
    VOut.err AttestErrors.InvalidAttestation
  else
    let usable_key := derive_key_from_shares agree sskdf sk report.server_key_share
    let attestation_data : AttestData :=
      { cert := certificate, nonce := nonce, service_name := bin_name,
        current_bin_hash := certificate.binary_hash,
        server_key_share := report.server_key_share, client_id := report.client_id }
    match hexDecode report.signature with
    | none => VOut.crash
    | some sig_bytes =>
      if sigVerify (serializeAttestData attestation_data) sig_bytes then
        VOut.ok (report.client_id, usable_key)
      else VOut.err AttestErrors.InvalidAttestation

/-- Embeds `DynamicAttestationVerifier::verify_binary` end to end:
randomness failure gives `CryptoError`, a missing reverse mapping
`ServiceMismatchError`, a failed TCP connect panics, an RPC error gives
`NetworkError`, then the response is verified by `verify_binary_response`. -/
def verify_binary (agree : SK → List Nat → List Nat)
    (sskdf : List Nat → List Nat → List Nat → List Nat)
    (sigVerify : List Nat → List Nat → Bool)
    (keyLoaded : Bool) (certificates : CertMap)
    (reverseMapping : List Nat → Option (List Nat))
    (randOk connectOk : Bool) (nonce : Nat) (sk : SK) (pubShare : SK → List Nat)
    (rpc : List Nat → Nat → List Nat → Option Report)
    (service_name : List Nat) : VOut (Nat × List Nat) :=
  if randOk = false then VOut.err AttestErrors.CryptoError
  else
    match reverseMapping service_name with
    | none => VOut.err AttestErrors.ServiceMismatchError
    | some bin_name =>
      if connectOk = false then VOut.crash
      else
        match rpc bin_name nonce (pubShare sk) with
        | none => VOut.err AttestErrors.NetworkError
        | some report =>
          verify_binary_response agree sskdf sigVerify keyLoaded certificates sk bin_name nonce report

end ClientVerifier

section CertificateIssuer

/-- Embeds `gen_certificate` (src/certificate_generation/src/manifest_generation.rs):
hex-decode both hashes (an invalid hex string panics, modelled `none`),
sign their concatenation with the issuer key, and emit the certificate
with the hex-encoded signature. -/
def gen_certificate (sign : List Nat → List Nat)
    (service_name policy_hash binary_hash : List Nat) : Option Certificate :=
  match hexDecode policy_hash, hexDecode binary_hash with
  | some policy_u8, some binary_u8 =>
    some { service_name := service_name, policy_hash := policy_hash,
           binary_hash := binary_hash,
           signature := hexEncode (sign (policy_u8 ++ binary_u8)) }
  | _, _ => none

end CertificateIssuer

/-- FIPS 180-4 test vector: the digest of "abc". -/
theorem sha256hex_abc :
    sha256hex (asciiBytes "abc") =
      asciiBytes "ba7816bf8f01cfea414140de5dae2223b00361a396177a9cb410ff61f20015ad" := by
  decide

/-- FIPS 180-4 test vector: the digest of the empty message. -/
theorem sha256hex_empty :
    sha256hex [] =
      asciiBytes "e3b0c44298fc1c149afbf4c8996fb92427ae41e4649b934ca495991b7852b855" := by
  decide

section ClaimsPolicyHasher

/-- Dependency entries of the failing crate state, in sorted order: the
pruned, sorted dependency names a, b zipped with their summary hashes. -/
def exDepsSorted : List (List Nat × List Nat) :=
  [(asciiBytes "a", asciiBytes "x"), (asciiBytes "b", asciiBytes "y")]

/-- The same entries in the reversed order, an equally possible iteration
order of the `RandomState`-seeded `HashMap` they are stored in. -/
def exDepsSwapped : List (List Nat × List Nat) :=
  [(asciiBytes "b", asciiBytes "y"), (asciiBytes "a", asciiBytes "x")]

/-- C1: the first line written by `dump_local_to_file` is claimed to hash
the canonical (crate-name-sorted) JSON of the dependency map.  The code
serializes a `RandomState` `HashMap`, whose iteration order is arbitrary:
for the crate state with dependency entries a→x, b→y and no local
implementations, the iteration order [b, a] is a permutation of the entries
yet produces a first line different from the claimed sorted-canonical
formula, so the emitted first line does not satisfy the claim. -/
theorem C1_first_line_not_sorted_canonical :
    exDepsSwapped.Perm (sortPairs exDepsSwapped) ∧
    sortPairs exDepsSwapped = exDepsSorted ∧
    dump_first_line exDepsSwapped [] ≠ specFirstLine exDepsSwapped [] := by
  refine ⟨by decide, by decide, ?_⟩
  decide

/-- C2: running the hasher twice on identical inputs is claimed to emit
byte-identical files.  The two runs may iterate the dependency `HashMap`
in different orders; for the entries a→x, b→y the orders [a, b] and [b, a]
yield different file bytes (the summary line and the body both differ). -/
theorem C2_file_bytes_not_deterministic :
    exDepsSwapped.Perm exDepsSorted ∧
    dump_file_bytes exDepsSorted [] ≠ dump_file_bytes exDepsSwapped [] := by
  refine ⟨by decide, ?_⟩
  decide

/-- C7: when the hash-index file cannot be opened, `prune_deps` is claimed
to behave as if the index were empty and succeed.  The code clears the
dependency list but then re-raises the open error with `?`, so for every
dependency list the call returns `Err` and the crate's attestation is
aborted (`attest_crate` propagates the error and the driver stops the
compilation). -/
theorem C7_prune_deps_errors_on_missing_index :
    ∀ deps : List (List Nat), prune_deps none deps = Except.error IoErr.notFound :=
  fun _ => rfl

/-- C8 counterexample: a policy-hash file whose first line is blank (the
contents begin with a newline) is claimed to be rejected with
`InvalidData`; instead `retrieve_hash_from_file` returns the empty string
as the hash and `get_leaves` records the empty string as the dependency's
summary hash. -/
theorem C8_blank_first_line_accepted :
    retrieve_hash_from_file (some [10, 97]) = Except.ok [] ∧
    get_leaves (fun _ => some [10, 97]) [asciiBytes "dep"] = Except.ok [[]] :=
  ⟨rfl, rfl⟩

/-- C8 (amended): only a policy-hash file with no first line at all (empty
contents) is rejected with `InvalidData`, by both the roll-up and the
certificate issuer; a blank first line is accepted and yields the
empty-string hash. -/
theorem C8_first_line_error_behavior (contents contents2 : List Nat) (hashLine : List Nat)
    (habsent : rustLines contents = [])
    (hfirst : (rustLines contents2).head? = some hashLine) :
    retrieve_hash_from_file (some contents) = Except.error IoErr.invalidData ∧
    get_leaves (fun _ => some contents) [asciiBytes "dep"] = Except.error IoErr.invalidData ∧
    retrieve_hash_from_file (some contents2) = Except.ok hashLine := by
  refine ⟨?_, ?_, ?_⟩
  · simp [retrieve_hash_from_file, habsent]
  · simp [get_leaves, get_leavesAux, habsent, Except.map]
  · simp [retrieve_hash_from_file, hfirst]

/-- C8 witness: empty contents have no first line and are rejected; contents
consisting of a single newline have a blank first line and are accepted. -/
theorem C8_first_line_error_behavior_witness :
    rustLines [] = [] ∧ (rustLines [10]).head? = some [] ∧
    (retrieve_hash_from_file (some []) = Except.error IoErr.invalidData ∧
     get_leaves (fun _ => some []) [asciiBytes "dep"] = Except.error IoErr.invalidData ∧
     retrieve_hash_from_file (some [10]) = Except.ok []) :=
  ⟨rfl, rfl, C8_first_line_error_behavior [] [10] [] rfl rfl⟩

end ClaimsPolicyHasher

section ClaimsServerState

/-- C9: retrieving a present client id returns its key and removes the
entry, so a second retrieval for the same id fails; retrieving an absent
id fails (the `expect` panics) without producing a modified map. -/
theorem C9_key_consumed_at_most_once (m m2 : ClientMap) (cid cid2 : Nat) (key : List Nat)
    (hpresent : m cid = some key) (habsent : m2 cid2 = none) :
    get_key_for_client m cid = some (key, removeClient m cid) ∧
    removeClient m cid cid = none ∧
    get_key_for_client (removeClient m cid) cid = none ∧
    get_key_for_client m2 cid2 = none := by
  refine ⟨?_, ?_, ?_, ?_⟩ <;> simp [get_key_for_client, removeClient, hpresent, habsent]

/-- A one-entry client map for the C9 witness. -/
def wClientMap : ClientMap := fun k => if k = 5 then some [9, 9] else none

/-- An empty client map for the C9 witness. -/
def wClientMapEmpty : ClientMap := fun _ => none

/-- C9 witness at a concrete one-entry map and a concrete empty map. -/
theorem C9_key_consumed_at_most_once_witness :
    wClientMap 5 = some [9, 9] ∧ wClientMapEmpty 7 = none ∧
    (get_key_for_client wClientMap 5 = some ([9, 9], removeClient wClientMap 5) ∧
     removeClient wClientMap 5 5 = none ∧
     get_key_for_client (removeClient wClientMap 5) 5 = none ∧
     get_key_for_client wClientMapEmpty 7 = none) :=
  ⟨rfl, rfl, C9_key_consumed_at_most_once wClientMap wClientMapEmpty 5 7 [9, 9] rfl rfl⟩

/-- C10: `register_service` with a parseable certificate whose embedded
service name differs from the argument returns `ServiceMismatchError` and
leaves the certificate map untouched; with an agreeing certificate it
inserts under the argument name and returns `true` exactly when the name
was previously unregistered (`false` silently overwrites). -/
theorem C10_register_service_behavior (certs certs2 : CertMap) (c c2 : Certificate)
    (name : List Nat) (hne : name ≠ c.service_name) :
    register_service certs (CertFile.parsed c) name =
        (Except.error AttestErrors.ServiceMismatchError, certs) ∧
    register_service certs2 (CertFile.parsed c2) c2.service_name =
        (Except.ok (certs2 c2.service_name).isNone, insertCert certs2 c2.service_name c2) ∧
    insertCert certs2 c2.service_name c2 c2.service_name = some c2 := by
  refine ⟨?_, ?_, ?_⟩ <;> simp [register_service, insertCert, hne]

/-- A concrete certificate for the C10 witness. -/
def wCert : Certificate :=
  { service_name := asciiBytes "svc", policy_hash := asciiBytes "aa",
    binary_hash := asciiBytes "bb", signature := asciiBytes "cc" }

/-- C10 witness: a mismatching registration attempt against an empty store
and a matching one. -/
theorem C10_register_service_behavior_witness :
    asciiBytes "other" ≠ wCert.service_name ∧
    (register_service (fun _ => none) (CertFile.parsed wCert) (asciiBytes "other") =
        (Except.error AttestErrors.ServiceMismatchError, fun _ => none) ∧
     register_service (fun _ => none) (CertFile.parsed wCert) wCert.service_name =
        (Except.ok ((none : Option Certificate)).isNone,
         insertCert (fun _ => none) wCert.service_name wCert) ∧
     insertCert (fun _ => none) wCert.service_name wCert wCert.service_name = some wCert) :=
  ⟨by decide,
   C10_register_service_behavior (fun _ => none) (fun _ => none) wCert wCert
     (asciiBytes "other") (by decide)⟩

end ClaimsServerState

section HexLemmas

/-- A hex digit byte decodes back to its value. -/
theorem hexVal_hexDigitByte (d : Nat) (h : d < 16) : hexVal (hexDigitByte d) = some d := by
  interval_cases d <;> rfl

/-- Prepending one encoded byte to a hex string. -/
theorem hexEncode_cons (b : Nat) (rest : List Nat) :
    hexEncode (b :: rest) = hexDigitByte (b / 16) :: hexDigitByte (b % 16) :: hexEncode rest := by
  simp [hexEncode]

/-- `hex::decode` inverts `hex::encode` on byte lists. -/
theorem hexDecode_hexEncode : ∀ bs : List Nat, (∀ b ∈ bs, b < 256) →
    hexDecode (hexEncode bs) = some bs
  | [], _ => rfl
  | b :: rest, h => by
    have hb : b < 256 := h b (by simp)
    have ih := hexDecode_hexEncode rest (fun x hx => h x (by simp [hx]))
    have e1 : hexVal (hexDigitByte (b / 16)) = some (b / 16) :=
      hexVal_hexDigitByte _ (by omega)
    have e2 : hexVal (hexDigitByte (b % 16)) = some (b % 16) :=
      hexVal_hexDigitByte _ (by omega)
    rw [hexEncode_cons, hexDecode, e1, e2, ih]
    have hd : 16 * (b / 16) + b % 16 = b := by omega
    simp [hd]

end HexLemmas

section ClaimsIssuer

/-- C4: a certificate produced by `gen_certificate` from valid hex policy
and binary hashes carries, hex-encoded, the issuer's signature over
`hex-decode(policy_hash) ++ hex-decode(binary_hash)`, so verification of
that signature over that blob succeeds whenever the signature scheme
verifies its own signatures (as Ed25519 does). -/
theorem C4_certificate_signature_verifies
    (sign : List Nat → List Nat) (verify : List Nat → List Nat → Bool)
    (hcorrect : ∀ m, verify m (sign m) = true)
    (hsignBytes : ∀ m, ∀ x ∈ sign m, x < 256)
    (service_name policy_hash binary_hash policy_u8 binary_u8 : List Nat)
    (hp : hexDecode policy_hash = some policy_u8)
    (hb : hexDecode binary_hash = some binary_u8) :
    (gen_certificate sign service_name policy_hash binary_hash).map (fun c => c.signature) =
        some (hexEncode (sign (policy_u8 ++ binary_u8))) ∧
    hexDecode (hexEncode (sign (policy_u8 ++ binary_u8))) = some (sign (policy_u8 ++ binary_u8)) ∧
    verify (policy_u8 ++ binary_u8) (sign (policy_u8 ++ binary_u8)) = true := by
  refine ⟨?_, hexDecode_hexEncode _ (hsignBytes _), hcorrect _⟩
  simp [gen_certificate, hp, hb]

/-- C4 witness: a toy correct scheme (the signature of every message is
`[0]`, verification compares against it) at hex inputs "00" and "ff". -/
theorem C4_certificate_signature_verifies_witness :
    hexDecode (asciiBytes "00") = some [0] ∧ hexDecode (asciiBytes "ff") = some [255] ∧
    ((gen_certificate (fun _ => [0]) (asciiBytes "svc") (asciiBytes "00")
          (asciiBytes "ff")).map (fun c => c.signature) = some (hexEncode [0]) ∧
     hexDecode (hexEncode [0]) = some [0] ∧
     (fun _ s => s == ([0] : List Nat)) (([0] : List Nat) ++ [255]) [0] = true) :=
  ⟨by decide, by decide,
   C4_certificate_signature_verifies (fun _ => [0]) (fun _ s => s == ([0] : List Nat))
     (fun _ => by simp) (fun _ x hx => by simp at hx; omega)
     (asciiBytes "svc") (asciiBytes "00") (asciiBytes "ff") [0] [255]
     (by decide) (by decide)⟩

end ClaimsIssuer

section ClaimsKeyAgreement

/-- C5: whenever `attest_binary` completes with the client's share
`pub(sk_c)`, the key the client derives from `(sk_c, report.server_key_share)`
and the key the sidecar derives from `(sk_s, pub(sk_c))` both equal the
key material handed to the FIFO writer, given the Diffie-Hellman
commutativity the X25519 agreement provides. -/
theorem C5_session_key_agreement {SK : Type}
    (binMap : List Nat → Option (List Nat)) (certMap : List Nat → Option Certificate)
    (svcMap : List Nat → Option (List Nat)) (hasFifo : List Nat → Bool)
    (pubShare : SK → List Nat) (agree : SK → List Nat → List Nat)
    (sskdf : List Nat → List Nat → List Nat → List Nat)
    (sign : List Nat → List Nat) (sealAead : List Nat → List Nat × List Nat)
    (sk_c sk_s : SK) (client_id : Nat) (service_name : List Nat) (nonce : Nat)
    (hdh : ∀ a b : SK, agree a (pubShare b) = agree b (pubShare a)) :
    Option.all
      (fun out =>
        (derive_key_from_shares agree sskdf sk_c out.report.server_key_share ==
          out.pipe_key_material) &&
        (derive_key_from_shares agree sskdf sk_s (pubShare sk_c) == out.pipe_key_material))
      (attest_binary binMap certMap svcMap hasFifo pubShare agree sskdf sign sealAead sk_s
        client_id service_name nonce (pubShare sk_c)) = true := by
  unfold attest_binary
  cases hbin : binMap service_name with
  | none => rfl
  | some bin =>
    cases hcert : certMap service_name with
    | none => rfl
    | some certificate =>
      cases hsvc : svcMap service_name with
      | none => rfl
      | some svc =>
        by_cases hf : hasFifo svc = true <;>
          simp [hf, Option.all, derive_key_from_shares, hdh sk_c sk_s]

/-- A toy instantiation for the C5 witness: secret keys are numbers, the
public share of `n` is `[n]`, agreement multiplies, the KDF projects. -/
def wAgree (a : Nat) (bs : List Nat) : List Nat := [a * bs.headD 0]

/-- C5 witness: concrete sidecar state and toy Diffie-Hellman scheme. -/
theorem C5_session_key_agreement_witness :
    Option.all
      (fun out =>
        (derive_key_from_shares wAgree (fun k _ _ => k) 3 out.report.server_key_share ==
          out.pipe_key_material) &&
        (derive_key_from_shares wAgree (fun k _ _ => k) 5 ((fun n => [n]) 3) ==
          out.pipe_key_material))
      (attest_binary (fun _ => some (asciiBytes "bh")) (fun _ => some wCert)
        (fun _ => some (asciiBytes "svc")) (fun _ => true) (fun n => [n]) wAgree
        (fun k _ _ => k) (fun _ => []) (fun m => ([], m)) 5 9 (asciiBytes "binA") 1
        ((fun n => [n]) 3)) = true :=
  C5_session_key_agreement (fun _ => some (asciiBytes "bh")) (fun _ => some wCert)
    (fun _ => some (asciiBytes "svc")) (fun _ => true) (fun n => [n]) wAgree
    (fun k _ _ => k) (fun _ => []) (fun m => ([], m)) 3 5 9 (asciiBytes "binA") 1
    (fun a b => by simp [wAgree, Nat.mul_comm])

end ClaimsKeyAgreement

section FifoLemmas

/-- Splitting never produces an empty field list. -/
theorem splitOnByte_ne_nil (c : Nat) : ∀ l : List Nat, splitOnByte c l ≠ []
  | [] => by simp [splitOnByte]
  | b :: bs => by
    by_cases h : b = c
    · simp [splitOnByte, h]
    · simp only [splitOnByte, h, if_false]
      cases hs : splitOnByte c bs <;> simp

/-- Splitting contents free of the separator gives a single field. -/
theorem splitOnByte_no_sep (c : Nat) : ∀ l : List Nat, (∀ b ∈ l, b ≠ c) →
    splitOnByte c l = [l]
  | [], _ => rfl
  | b :: bs, h => by
    have hb : b ≠ c := h b (by simp)
    have ih := splitOnByte_no_sep c bs (fun x hx => h x (by simp [hx]))
    simp [splitOnByte, hb, ih]

/-- Splitting a separator-free field off the front. -/
theorem splitOnByte_append (c : Nat) : ∀ a rest : List Nat, (∀ b ∈ a, b ≠ c) →
    splitOnByte c (a ++ (c :: rest)) = a :: splitOnByte c rest
  | [], rest, _ => by simp [splitOnByte]
  | x :: xs, rest, h => by
    have hx : x ≠ c := h x (by simp)
    have ih := splitOnByte_append c xs rest (fun b hb => h b (by simp [hb]))
    simp [splitOnByte, hx, ih]

/-- Hex digit bytes are at least 48. -/
theorem hexDigitByte_ge (d : Nat) : 48 ≤ hexDigitByte d := by
  unfold hexDigitByte; split <;> omega

/-- Every byte of a hex encoding is at least 48 (so never a comma or a
newline). -/
theorem hexEncode_mem_ge (bs : List Nat) : ∀ b ∈ hexEncode bs, 48 ≤ b := by
  intro b hb
  simp only [hexEncode, List.mem_flatMap] at hb
  obtain ⟨x, -, hx⟩ := hb
  simp only [List.mem_cons, List.mem_singleton] at hx
  rcases hx with h | h | h
  · subst h; exact hexDigitByte_ge _
  · subst h; exact hexDigitByte_ge _
  · cases h

/-- Decimal renderings consist of ASCII digits. -/
theorem decimalBytes_mem (n : Nat) : ∀ b ∈ decimalBytes n, 48 ≤ b ∧ b ≤ 57 := by
  intro b hb
  unfold decimalBytes at hb
  split at hb
  · simp at hb; omega
  · simp only [List.mem_map, List.mem_reverse] at hb
    obtain ⟨d, hd, rfl⟩ := hb
    have : d < 10 := Nat.digits_lt_base (by norm_num) hd
    omega

/-- Trimming the trailing newline recovers a newline-free field. -/
theorem trimEndNewline_append (dec : List Nat) (h : ∀ b ∈ dec, b ≠ 10) :
    trimEndNewline (dec ++ [10]) = dec := by
  unfold trimEndNewline
  rw [List.reverse_append]
  show ((10 :: dec.reverse).dropWhile (fun b => b = 10)).reverse = dec
  rw [List.dropWhile_cons]
  simp only [decide_eq_true_eq, if_pos rfl]
  cases hdr : dec.reverse with
  | nil =>
    have : dec = [] := by simpa using congrArg List.reverse hdr
    simp [this]
  | cons x xs =>
    have hx : x ∈ dec := by
      have : x ∈ dec.reverse := by simp [hdr]
      simpa using this
    rw [List.dropWhile_cons]
    simp only [decide_eq_true_eq, if_neg (h x hx)]
    calc (x :: xs).reverse = dec.reverse.reverse := by rw [hdr]
      _ = dec := List.reverse_reverse dec

/-- Horner evaluation of a most-significant-first digit list. -/
theorem foldl_horner (l : List Nat) : ∀ a : Nat,
    l.foldl (fun acc d => acc * 10 + d) a = a * 10 ^ l.length + Nat.ofDigits 10 l.reverse := by
  induction l with
  | nil => intro a; simp [Nat.ofDigits]
  | cons d ds ih =>
    intro a
    simp only [List.foldl_cons, List.reverse_cons, List.length_cons]
    rw [ih (a * 10 + d), Nat.ofDigits_append, Nat.ofDigits_singleton]
    simp only [List.length_reverse]
    ring

/-- The ASCII offset cancels inside the parser fold. -/
theorem foldl_sub48 (l : List Nat) : ∀ a : Nat,
    (l.map (fun d => 48 + d)).foldl (fun acc b => acc * 10 + (b - 48)) a =
      l.foldl (fun acc d => acc * 10 + d) a := by
  induction l with
  | nil => intro a; rfl
  | cons d ds ih =>
    intro a
    simp only [List.map_cons, List.foldl_cons, Nat.add_sub_cancel_left]
    exact ih _

/-- `usize::from_str_radix` inverts the decimal rendering of a 64-bit
value. -/
theorem parseDecimal_decimalBytes (n : Nat) (h : n < 2 ^ 64) :
    parseDecimal (decimalBytes n) = some n := by
  by_cases h0 : n = 0
  · subst h0; rfl
  · have hdigits : Nat.digits 10 n ≠ [] := Nat.digits_ne_nil_iff_ne_zero.mpr h0
    have hne : decimalBytes n ≠ [] := by
      unfold decimalBytes
      simp [h0, hdigits]
    have hall : (decimalBytes n).all (fun b => 48 ≤ b ∧ b ≤ 57) = true := by
      simp only [List.all_eq_true, decide_eq_true_eq]
      exact decimalBytes_mem n
    have hv : (decimalBytes n).foldl (fun acc b => acc * 10 + (b - 48)) 0 = n := by
      unfold decimalBytes
      simp only [h0, if_false]
      rw [foldl_sub48, foldl_horner]
      simp [Nat.ofDigits_digits]
    simp [parseDecimal, hne, hall, hv, h]
    exact ⟨decimalBytes_mem n, h⟩

end FifoLemmas

section ClaimsFifo

/-- C6: a FIFO line written by the sidecar for any 32-byte session key and
64-bit client id is parsed and decrypted by the service back to exactly the
original key material and client id, for any AEAD whose `open` inverts its
`seal` (nonce of 12 bytes, byte-valued outputs). -/
theorem C6_fifo_line_roundtrip (sealAead : List Nat → List Nat × List Nat)
    (openAead : List Nat → List Nat → Option (List Nat))
    (key_material : List Nat) (client_id : Nat)
    (hklen : key_material.length = 32)
    (hnlen : (sealAead key_material).1.length = 12)
    (hnb : ∀ b ∈ (sealAead key_material).1, b < 256)
    (hcb : ∀ b ∈ (sealAead key_material).2, b < 256)
    (hopen : openAead (sealAead key_material).1 (sealAead key_material).2 = some key_material)
    (hcid : client_id < 2 ^ 64) :
    read_session_key openAead (write_session_key sealAead key_material client_id) =
      some (client_id, key_material) := by
  have hn44 : ∀ b ∈ hexEncode (sealAead key_material).1, b ≠ 44 := by
    intro b hb; have := hexEncode_mem_ge _ b hb; omega
  have hc44 : ∀ b ∈ hexEncode (sealAead key_material).2, b ≠ 44 := by
    intro b hb; have := hexEncode_mem_ge _ b hb; omega
  have hd44 : ∀ b ∈ decimalBytes client_id ++ [10], b ≠ 44 := by
    intro b hb
    rcases List.mem_append.mp hb with h | h
    · have := decimalBytes_mem client_id b h; omega
    · simp at h; omega
  have hd10 : ∀ b ∈ decimalBytes client_id, b ≠ 10 := by
    intro b hb; have := decimalBytes_mem client_id b hb; omega
  have hsplit :
      splitOnByte 44 (write_session_key sealAead key_material client_id) =
        [hexEncode (sealAead key_material).1, hexEncode (sealAead key_material).2,
         decimalBytes client_id ++ [10]] := by
    show splitOnByte 44
        (hexEncode (sealAead key_material).1 ++
          (44 :: (hexEncode (sealAead key_material).2 ++
            (44 :: (decimalBytes client_id ++ [10]))))) = _
    rw [splitOnByte_append 44 _ _ hn44, splitOnByte_append 44 _ _ hc44,
      splitOnByte_no_sep 44 _ hd44]
  unfold read_session_key
  rw [hsplit]
  simp [hexDecode_hexEncode _ hnb, hexDecode_hexEncode _ hcb, hnlen, hopen, hklen,
    trimEndNewline_append _ hd10, parseDecimal_decimalBytes client_id hcid]

/-- A concrete session key for the C6 witness. -/
def wKeyMaterial : List Nat := List.replicate 32 7

/-- A toy AEAD seal for the C6 witness: zero nonce, identity cipher. -/
def wSeal (m : List Nat) : List Nat × List Nat := (List.replicate 12 0, m)

/-- C6 witness: the toy AEAD at a concrete 32-byte key and client id. -/
theorem C6_fifo_line_roundtrip_witness :
    wKeyMaterial.length = 32 ∧ (wSeal wKeyMaterial).1.length = 12 ∧ 12345 < 2 ^ 64 ∧
    read_session_key (fun _ c => some c) (write_session_key wSeal wKeyMaterial 12345) =
      some (12345, wKeyMaterial) :=
  ⟨by decide, by decide, by decide,
   C6_fifo_line_roundtrip wSeal (fun _ c => some c) wKeyMaterial 12345
     (by decide) (by decide) (by decide) (by decide) rfl (by decide)⟩

end ClaimsFifo

section ClaimsClientVerifier

/-- Certificate stored by the client for service "svcX". -/
def cexCertX : Certificate :=
  { service_name := asciiBytes "svcX", policy_hash := asciiBytes "aa",
    binary_hash := asciiBytes "bb", signature := asciiBytes "00" }

/-- The client certificate store holding only "svcX". -/
def cexCerts : CertMap := fun k => if k = asciiBytes "svcX" then some cexCertX else none

/-- A report answering an attestation of binary service "binA" that bundles
the certificate of the unrelated service "svcX". -/
def cexReport : Report :=
  { certificate := cexCertX, nonce := 1, service_name := asciiBytes "binA",
    current_bin_hash := asciiBytes "bb", server_key_share := [1], client_id := 9,
    signature := asciiBytes "00" }

/-- C3 counterexample: `verify_binary` succeeds although the client store
holds no certificate at all for the resolved binary service "binA" — the
code looks the local certificate up under the service name embedded in the
report's certificate ("svcX"), so the claimed condition "the locally stored
certificate for the resolved binary service equals the report's
certificate" does not hold on success. -/
theorem C3_success_without_bin_service_certificate :
    (verify_binary (fun (_ : Nat) _ => []) (fun k _ _ => k) (fun _ _ => true) true cexCerts
        (fun _ => some (asciiBytes "binA")) true true 1 0 (fun _ => [])
        (fun _ _ _ => some cexReport) (asciiBytes "pub")).isOk = true ∧
    cexCerts (asciiBytes "binA") = none :=
  ⟨rfl, rfl⟩

/-- C3 (amended): once the RPC response is in hand, the certificate check
compares the certificate stored under the service name embedded in the
report's certificate (not the resolved binary service) with the report's
certificate on all fields, requiring the accepted key to be loaded; success
additionally requires `current_bin_hash` to equal the certificate's
`binary_hash` and the signature to verify over the re-serialized blob, and
each failing verification step yields exactly `InvalidAttestation` (except
that a report signature which is not valid hex panics). -/
theorem C3_verification_behavior {SK : Type}
    (agree : SK → List Nat → List Nat) (sskdf : List Nat → List Nat → List Nat → List Nat)
    (sigVerify : List Nat → List Nat → Bool) (keyLoaded : Bool) (certificates : CertMap)
    (reverseMapping : List Nat → Option (List Nat)) (nonce : Nat) (sk : SK)
    (pubShare : SK → List Nat) (rpc : List Nat → Nat → List Nat → Option Report)
    (service_name bin_name : List Nat) (report r2 r3 r4 r5 : Report) (sb4 sb5 : List Nat)
    (hrev : reverseMapping service_name = some bin_name)
    (hrpc : rpc bin_name nonce (pubShare sk) = some report)
    (hcert2 : verify_certificate keyLoaded certificates r2.certificate = false)
    (hcert3 : verify_certificate keyLoaded certificates r3.certificate = true)
    (hhash3 : r3.current_bin_hash ≠ r3.certificate.binary_hash)
    (hcert4 : verify_certificate keyLoaded certificates r4.certificate = true)
    (hhash4 : r4.current_bin_hash = r4.certificate.binary_hash)
    (hdec4 : hexDecode r4.signature = some sb4)
    (hsig4 : sigVerify (serializeAttestData
      { cert := r4.certificate, nonce := nonce, service_name := bin_name,
        current_bin_hash := r4.certificate.binary_hash,
        server_key_share := r4.server_key_share, client_id := r4.client_id }) sb4 = false)
    (hcert5 : verify_certificate keyLoaded certificates r5.certificate = true)
    (hhash5 : r5.current_bin_hash = r5.certificate.binary_hash)
    (hdec5 : hexDecode r5.signature = some sb5)
    (hsig5 : sigVerify (serializeAttestData
      { cert := r5.certificate, nonce := nonce, service_name := bin_name,
        current_bin_hash := r5.certificate.binary_hash,
        server_key_share := r5.server_key_share, client_id := r5.client_id }) sb5 = true) :
    verify_binary agree sskdf sigVerify keyLoaded certificates reverseMapping true true nonce sk
        pubShare rpc service_name =
      verify_binary_response agree sskdf sigVerify keyLoaded certificates sk bin_name nonce
        report ∧
    verify_binary_response agree sskdf sigVerify keyLoaded certificates sk bin_name nonce r2 =
      VOut.err AttestErrors.InvalidAttestation ∧
    verify_binary_response agree sskdf sigVerify keyLoaded certificates sk bin_name nonce r3 =
      VOut.err AttestErrors.InvalidAttestation ∧
    verify_binary_response agree sskdf sigVerify keyLoaded certificates sk bin_name nonce r4 =
      VOut.err AttestErrors.InvalidAttestation ∧
    verify_binary_response agree sskdf sigVerify keyLoaded certificates sk bin_name nonce r5 =
      VOut.ok (r5.client_id, derive_key_from_shares agree sskdf sk r5.server_key_share) := by
  refine ⟨?_, ?_, ?_, ?_, ?_⟩
  · simp [verify_binary, hrev, hrpc]
  · simp [verify_binary_response, hcert2]
  · simp [verify_binary_response, hcert3, hhash3]
  · simp [verify_binary_response, hcert4, hhash4, hdec4, hsig4]
  · simp [verify_binary_response, hcert5, hhash5, hdec5, hsig5]

/-- Report with a certificate the client never registered. -/
def wR2 : Report :=
  { cexReport with certificate :=
      { cexCertX with service_name := asciiBytes "nope" } }

/-- Report whose running binary hash disagrees with its certificate. -/
def wR3 : Report := { cexReport with current_bin_hash := asciiBytes "zz" }

/-- Report whose signature hex-decodes to [0], which the toy verifier
rejects. -/
def wR4 : Report := cexReport

/-- Report whose signature hex-decodes to [1], which the toy verifier
accepts. -/
def wR5 : Report := { cexReport with signature := asciiBytes "01" }

/-- Toy signature verifier for the C3 witness: accepts exactly the
signature bytes [1]. -/
def wSigVerify (_msg sb : List Nat) : Bool := sb == [1]

/-- C3 witness: the concrete store, reports and toy primitives exercising
all four verification outcomes. -/
theorem C3_verification_behavior_witness :
    verify_binary (fun (_ : Nat) _ => []) (fun k _ _ => k) wSigVerify true cexCerts
        (fun _ => some (asciiBytes "binA")) true true 1 0 (fun _ => [])
        (fun _ _ _ => some cexReport) (asciiBytes "pub") =
      verify_binary_response (fun (_ : Nat) _ => []) (fun k _ _ => k) wSigVerify true cexCerts
        0 (asciiBytes "binA") 1 cexReport ∧
    verify_binary_response (fun (_ : Nat) _ => []) (fun k _ _ => k) wSigVerify true cexCerts
        0 (asciiBytes "binA") 1 wR2 = VOut.err AttestErrors.InvalidAttestation ∧
    verify_binary_response (fun (_ : Nat) _ => []) (fun k _ _ => k) wSigVerify true cexCerts
        0 (asciiBytes "binA") 1 wR3 = VOut.err AttestErrors.InvalidAttestation ∧
    verify_binary_response (fun (_ : Nat) _ => []) (fun k _ _ => k) wSigVerify true cexCerts
        0 (asciiBytes "binA") 1 wR4 = VOut.err AttestErrors.InvalidAttestation ∧
    verify_binary_response (fun (_ : Nat) _ => []) (fun k _ _ => k) wSigVerify true cexCerts
        0 (asciiBytes "binA") 1 wR5 =
      VOut.ok (wR5.client_id,
        derive_key_from_shares (fun (_ : Nat) _ => []) (fun k _ _ => k) 0
          wR5.server_key_share) :=
  C3_verification_behavior (fun (_ : Nat) _ => []) (fun k _ _ => k) wSigVerify true cexCerts
    (fun _ => some (asciiBytes "binA")) 1 0 (fun _ => [])
    (fun _ _ _ => some cexReport) (asciiBytes "pub") (asciiBytes "binA")
    cexReport wR2 wR3 wR4 wR5 [0] [1]
    rfl rfl (by decide) (by decide) (by decide) (by decide) (by decide) (by decide)
    (by decide) (by decide) (by decide) (by decide) (by decide)

end ClaimsClientVerifier

end Tahini
